import Mathlib

/-!
Verification of the timbal-sdk request-dispatch layer.

The definitions below are a shallow embedding of the TypeScript sources:
`ApiClient.makeRequest`, `ApiClient.parseErrorResponse`, header construction,
`deepMerge` from `src/lib/utils/index.ts`, and the `getConfig` shallow copy.
The network is abstracted as an oracle assigning to each attempt index the
outcome the `fetch` call (and subsequent body reads) would produce on that
attempt.
-/

/-- JSON-like values, used for the `details` payload of errors and for the
configuration objects handled by `deepMerge`. -/
inductive JVal where
  | null
  | bool (b : Bool)
  | num (n : Int)
  | str (s : String)
  | arr (elems : List JVal)
  | obj (fields : List (String × JVal))

/-- Structured payload type that error bodies may carry in their `details`
field (the TypeScript type is `Record<string, any>`). -/
abbrev Details := List (String × JVal)

/-- Embeds `interface TimbalConfig` in its `Required<TimbalConfig>` form, the
shape stored by `ApiClient` after merging with defaults. -/
structure TimbalConfig where
  apiKey : String
  baseUrl : String
  timeout : Nat
  retryAttempts : Nat
  retryDelay : Nat
deriving DecidableEq, Repr

/-- Embeds `interface ApiResponse<T>`: the success envelope returned by
`makeRequest` (the optional `message`/`error` fields are never set by the
dispatcher and are omitted). -/
structure ApiResponse (T : Type) where
  data : T
  success : Bool
  statusCode : Nat
deriving DecidableEq, Repr

/-- Embeds `class TimbalApiError`: the classified error raised by
`makeRequest` (message, HTTP status code or 0 for non-HTTP failures,
optional machine code, optional structured details). -/
structure TimbalApiError where
  message : String
  statusCode : Nat
  code : Option String
  details : Option Details

/-- Embeds `interface ApiError`: the structure returned by
`parseErrorResponse`. -/
structure ApiError where
  message : String
  statusCode : Nat
  code : Option String
  details : Option Details

/-! Modelled from the spec: the `ERROR_CODES` constant table is imported by
the api module from a constants file that is not among the provided sources;
the spec names the machine codes TIMEOUT_ERROR and NETWORK_ERROR for
exhausted timeouts and network failures, and the unknown-error fallback
carries a server-error code. -/

namespace ERROR_CODES

def TIMEOUT_ERROR : String := "TIMEOUT_ERROR"

def NETWORK_ERROR : String := "NETWORK_ERROR"

def SERVER_ERROR : String := "SERVER_ERROR"

end ERROR_CODES

/-- The fields of a successfully JSON-parsed non-success response body, as
read by `parseErrorResponse` (`errorData.message`, `errorData.error`,
`errorData.code`, `errorData.details`); `none` models an absent field. -/
structure ErrBody where
  message : Option String
  error : Option String
  code : Option String
  details : Option Details

/-- JavaScript truthiness fallback `s || d` for a string `s` already known to
be a string: the empty string is falsy. -/
def jsStrOr (s d : String) : String :=
  if s = "" then d else s

/-- JavaScript truthiness fallback `v || d` where `v` may be absent
(`undefined`, modelled `none`) or an empty string (falsy). -/
def jsFieldOr (v : Option String) (d : String) : String :=
  match v with
  | some s => jsStrOr s d
  | none => d

/-- Embeds `ApiClient.parseErrorResponse`: try to JSON-parse the error body
(`errBody = some ed` when `response.json()` succeeds); on success return
`errorData.message || errorData.error || 'Unknown error'` with the body's
code and details; on parse failure fall back to
`response.statusText || 'Unknown error'` with no code or details. -/
def parseErrorResponse (status : Nat) (statusText : String)
    (errBody : Option ErrBody) : ApiError :=
  match errBody with
  | some ed =>
      { message := jsFieldOr ed.message (jsFieldOr ed.error "Unknown error")
        statusCode := status
        code := ed.code
        details := ed.details }
  | none =>
      { message := jsStrOr statusText "Unknown error"
        statusCode := status
        code := none
        details := none }

/-- The `TimbalApiError` thrown by `makeRequest` on a non-ok HTTP response:
`new TimbalApiError(errorData.message || 'Request failed', response.status,
errorData.code, errorData.details)`. -/
def timbalOfHttpError (status : Nat) (statusText : String)
    (errBody : Option ErrBody) : TimbalApiError :=
  let ed := parseErrorResponse status statusText errBody
  { message := jsStrOr ed.message "Request failed"
    statusCode := status
    code := ed.code
    details := ed.details }

/-- Outcome of one physical attempt, as produced by the environment: either
the `fetch` promise resolves to a response (with its status, status text, the
result of JSON-parsing the body as an error payload, and the result of
JSON-parsing the body as success data, of which the dispatcher reads exactly
one depending on `response.ok`), or it rejects with an `AbortError` (the
per-attempt timeout fired), a `TypeError` (transport/network failure), or
some other unexpected error. In `okBody`, `Except.error d` models
`response.json()` throwing a `SyntaxError` whose string form is `d`. -/
inductive FetchOutcome (T : Type) where
  | response (status : Nat) (statusText : String)
      (errBody : Option ErrBody) (okBody : Except String T)
  | abortError
  | typeError (msg : String)
  | otherError (desc : String)

/-- The JavaScript errors that can reach the `catch` block of
`makeRequest`. -/
inductive JsError where
  | abort
  | typeErr (msg : String)
  | timbal (e : TimbalApiError)
  | other (desc : String)

/-- JavaScript `response.ok`: status in the range 200-299. -/
def responseOk (status : Nat) : Bool :=
  200 ≤ status && status < 300

/-- The `try` block of `makeRequest` for one attempt: a resolved response
with a non-ok status throws the parsed `TimbalApiError`; an ok status
returns `(status, data)` if the body parses as JSON and otherwise throws the
JSON syntax error; a rejected fetch re-throws its error. -/
def attemptOnce {T : Type} (o : FetchOutcome T) : Except JsError (Nat × T) :=
  match o with
  | .response status statusText errBody okBody =>
      if responseOk status then
        match okBody with
        | .ok data => .ok (status, data)
        | .error d => .error (.other d)
      else
        .error (.timbal (timbalOfHttpError status statusText errBody))
  | .abortError => .error .abort
  | .typeError m => .error (.typeErr m)
  | .otherError d => .error (.other d)

/-- Observable result of a dispatch: the returned envelope or raised error,
the number of physical attempts issued, and the list of backoff waits (in
milliseconds, in order) slept between attempts. -/
structure DispatchResult (T : Type) where
  result : Except TimbalApiError (ApiResponse T)
  attempts : Nat
  waits : List Nat

/-- Embeds `ApiClient.makeRequest` from the attempt with index `retryCount`
onwards. Classification in the `catch` block follows the source order:
`AbortError` retries below the cap else raises the timeout error;
`TypeError` retries below the cap else raises the network error;
a `TimbalApiError` with a 5xx status retries below the cap, any other
`TimbalApiError` is re-raised as-is; anything else raises the unknown-error
fallback. Each retry first sleeps `retryDelay * (retryCount + 1)`. -/
def makeRequestFrom {T : Type} (cfg : TimbalConfig)
    (oracle : Nat → FetchOutcome T) (retryCount : Nat) : DispatchResult T :=
  match attemptOnce (oracle retryCount) with
  | .ok (status, data) =>
      { result := .ok { data := data, success := true, statusCode := status }
        attempts := 1
        waits := [] }
  | .error .abort =>
      if _h : retryCount < cfg.retryAttempts then
        let r := makeRequestFrom cfg oracle (retryCount + 1)
        { result := r.result
          attempts := r.attempts + 1
          waits := cfg.retryDelay * (retryCount + 1) :: r.waits }
      else
        { result := .error
            { message := "Request timeout", statusCode := 0
              code := some ERROR_CODES.TIMEOUT_ERROR, details := none }
          attempts := 1
          waits := [] }
  | .error (.typeErr m) =>
      if _h : retryCount < cfg.retryAttempts then
        let r := makeRequestFrom cfg oracle (retryCount + 1)
        { result := r.result
          attempts := r.attempts + 1
          waits := cfg.retryDelay * (retryCount + 1) :: r.waits }
      else
        { result := .error
            { message := "Network error: " ++ m, statusCode := 0
              code := some ERROR_CODES.NETWORK_ERROR, details := none }
          attempts := 1
          waits := [] }
  | .error (.timbal e) =>
      if _h : 500 ≤ e.statusCode ∧ retryCount < cfg.retryAttempts then
        let r := makeRequestFrom cfg oracle (retryCount + 1)
        { result := r.result
          attempts := r.attempts + 1
          waits := cfg.retryDelay * (retryCount + 1) :: r.waits }
      else
        { result := .error e
          attempts := 1
          waits := [] }
  | .error (.other d) =>
      { result := .error
          { message := "Unknown error occurred: " ++ d, statusCode := 0
            code := some ERROR_CODES.SERVER_ERROR, details := none }
        attempts := 1
        waits := [] }
termination_by cfg.retryAttempts - retryCount
decreasing_by all_goals omega

/-- A dispatch call: `makeRequest` entered with `retryCount = 0`. -/
def makeRequest {T : Type} (cfg : TimbalConfig)
    (oracle : Nat → FetchOutcome T) : DispatchResult T :=
  makeRequestFrom cfg oracle 0

/-- An attempt outcome is retryable when the catch block would re-issue the
attempt (given budget): a timeout abort, a network `TypeError`, or an HTTP
response with a 5xx status (such a response is never ok, and the
`TimbalApiError` built from it carries `statusCode = status ≥ 500`). -/
def retryable {T : Type} : FetchOutcome T → Bool
  | .response status _ _ _ => 500 ≤ status
  | .abortError => true
  | .typeError _ => true
  | .otherError _ => false

/-- Length of the retryable prefix of the outcomes starting at `start`,
capped at the given fuel. -/
def streakFrom {T : Type} (oracle : Nat → FetchOutcome T)
    (start : Nat) : Nat → Nat
  | 0 => 0
  | k + 1 =>
      if retryable (oracle start) then streakFrom oracle (start + 1) k + 1
      else 0

/-- The terminal classified error that a dispatch raises when the outcome `o`
occurs on the last attempt with no retry budget left: the timeout error for
an abort, the network error for a `TypeError`, the parsed HTTP error for a
response, and the unknown-error fallback otherwise. -/
def exhaustErr {T : Type} : FetchOutcome T → TimbalApiError
  | .response s st eb _ => timbalOfHttpError s st eb
  | .abortError =>
      { message := "Request timeout", statusCode := 0
        code := some ERROR_CODES.TIMEOUT_ERROR, details := none }
  | .typeError m =>
      { message := "Network error: " ++ m, statusCode := 0
        code := some ERROR_CODES.NETWORK_ERROR, details := none }
  | .otherError d =>
      { message := "Unknown error occurred: " ++ d, statusCode := 0
        code := some ERROR_CODES.SERVER_ERROR, details := none }

/-- The body passed to an attempt, as far as header construction observes it:
absent, a string (JSON-serialized payloads and raw text), a `FormData`
multipart form, or a binary `File`/`Blob`. -/
inductive BodyOpt where
  | absent
  | str (s : String)
  | formData
  | blob

/-- ASCII lower-casing of a header name, character by character, as the
JavaScript `Headers` class normalizes header names. -/
def lowerName (s : String) : String :=
  String.mk (s.data.map Char.toLower)

/-- JavaScript `Headers.set`: keys are normalized to lower case; an existing
entry is overwritten in place, otherwise the pair is appended. -/
def headersSet (hs : List (String × String)) (k v : String) :
    List (String × String) :=
  let lk := lowerName k
  if hs.any (fun p => p.1 = lk) then
    hs.map (fun p => if p.1 = lk then (lk, v) else p)
  else
    hs ++ [(lk, v)]

/-- JavaScript `Headers.get`: case-insensitive lookup. -/
def headersGet (hs : List (String × String)) (k : String) : Option String :=
  (hs.find? (fun p => p.1 = lowerName k)).map Prod.snd

/-- JavaScript `Headers.has`: case-insensitive membership. -/
def headersHas (hs : List (String × String)) (k : String) : Bool :=
  hs.any (fun p => p.1 = lowerName k)

/-- Embeds the header construction of `makeRequest`: start from
`new Headers({ Authorization: Bearer <apiKey> })`, overlay each
caller-supplied header with `headers.set`, then default `Content-Type` to
`application/json` when the body is truthy (a non-empty string — the empty
string is falsy in JavaScript), is a string, and no content-type header is
present. -/
def withCustomHeaders (apiKey : String)
    (optHeaders : List (String × String)) : List (String × String) :=
  optHeaders.foldl (fun hs p => headersSet hs p.1 p.2)
    [("authorization", "Bearer " ++ apiKey)]

/-- Final step of the header construction: default `Content-Type` to
`application/json` when the body is truthy (a non-empty string — the empty
string is falsy in JavaScript), is a string, and no content-type header is
present. -/
def buildHeaders (apiKey : String) (optHeaders : List (String × String))
    (body : BodyOpt) : List (String × String) :=
  match body with
  | .str s =>
      if s ≠ "" && !headersHas (withCustomHeaders apiKey optHeaders) "Content-Type" then
        headersSet (withCustomHeaders apiKey optHeaders) "Content-Type" "application/json"
      else withCustomHeaders apiKey optHeaders
  | _ => withCustomHeaders apiKey optHeaders

/-- JavaScript truthiness of a value. -/
def jsTruthy : JVal → Bool
  | .null => false
  | .bool b => b
  | .num n => n != 0
  | .str s => s != ""
  | .arr _ => true
  | .obj _ => true

/-- JavaScript `v || d` for a possibly absent value (`none` models
`undefined`). -/
def jsOrVal (v : Option JVal) (d : JVal) : JVal :=
  match v with
  | some x => if jsTruthy x then x else d
  | none => d

/-- The guard of `deepMerge`:
`sourceValue && typeof sourceValue === 'object' && !Array.isArray(sourceValue)`
holds exactly for non-null, non-array objects. -/
def isMergeableObj : JVal → Bool
  | .obj _ => true
  | _ => false

/-- Own enumerable string-keyed entries of a value, as produced by both the
object spread `{ ...v }` and `Object.keys(v)`: an object yields its fields,
an array its index-keyed elements, a string its index-keyed characters, and
primitives yield nothing. -/
def keyEntries : JVal → List (String × JVal)
  | .obj fs => fs
  | .arr es => (es.enum.map fun p => (toString p.1, p.2))
  | .str s => (s.toList.enum.map fun p => (toString p.1, JVal.str (String.mk [p.2])))
  | _ => []

/-- JavaScript property assignment `result[key] = v` on an object represented
as an ordered field list: overwrite in place if present, else append. -/
def setField (fs : List (String × JVal)) (k : String) (v : JVal) :
    List (String × JVal) :=
  if fs.any (fun p => p.1 = k) then
    fs.map (fun p => if p.1 = k then (k, v) else p)
  else
    fs ++ [(k, v)]

/-- Property lookup `v[key]`. -/
def getField (fs : List (String × JVal)) (k : String) : Option JVal :=
  (fs.find? (fun p => p.1 = k)).map Prod.snd

mutual

/-- Embeds `deepMerge` from `src/lib/utils/index.ts`: start from
`{ ...target }` and walk the source keys in order; a key whose source value
is a non-null non-array object is merged recursively against
`target[key] || {}`, any other source value overwrites. A non-object source
contributes no keys (the TypeScript signature constrains the source to a
`Partial<T>` record, so the string/array cases cannot arise there). -/
def deepMerge (target source : JVal) : JVal :=
  match source with
  | .obj sfs => .obj (mergeFields target (keyEntries target) sfs)
  | _ => .obj (keyEntries target)

/-- The body of the `Object.keys(source).forEach` loop of `deepMerge`,
threading the accumulated result object; note that `targetValue` is read
from the original `target` on every iteration. -/
def mergeFields (target : JVal) (acc : List (String × JVal)) :
    List (String × JVal) → List (String × JVal)
  | [] => acc
  | (k, sv) :: rest =>
      let newV :=
        if isMergeableObj sv then
          deepMerge (jsOrVal (getField (keyEntries target) k) (.obj [])) sv
        else sv
      mergeFields target (setField acc k newV) rest

end

/-- Field list of an object value. -/
def objFields : JVal → List (String × JVal)
  | .obj fs => fs
  | _ => []

/-- A heap of JavaScript objects, each an ordered field list; a reference is
an index into the allocation list. This gives object identity its meaning so
that the shallow copy performed by `getConfig` can be distinguished from
returning the stored object itself. -/
structure Heap where
  objs : List (List (String × JVal))

/-- Dereference. -/
def Heap.read (h : Heap) (r : Nat) : Option (List (String × JVal)) :=
  h.objs.get? r

/-- Allocate a fresh object with the given fields, returning its
reference. -/
def Heap.alloc (h : Heap) (fs : List (String × JVal)) : Heap × Nat :=
  (⟨h.objs ++ [fs]⟩, h.objs.length)

/-- Mutate one field of the object at reference `r`. -/
def Heap.writeField (h : Heap) (r : Nat) (k : String) (v : JVal) : Heap :=
  ⟨h.objs.set r (setField ((h.objs.get? r).getD []) k v)⟩

/-- The heap-relevant state of an `ApiClient`: the reference to its stored
`config` object. -/
structure ClientState where
  heap : Heap
  configRef : Nat

/-- Embeds `getConfig(): return { ...this.config }` — allocate a fresh
object whose fields are copied from the stored config object, and return its
reference together with the new state. -/
def getConfig (st : ClientState) : ClientState × Nat :=
  let fs := (st.heap.read st.configRef).getD []
  let (h, r) := st.heap.alloc fs
  ({ st with heap := h }, r)

lemma streakFrom_zero {T : Type} (oracle : Nat → FetchOutcome T) (start : Nat) :
    streakFrom oracle start 0 = 0 := rfl

lemma streakFrom_succ {T : Type} (oracle : Nat → FetchOutcome T) (start k : Nat) :
    streakFrom oracle start (k + 1) =
      if retryable (oracle start) then streakFrom oracle (start + 1) k + 1 else 0 := rfl

lemma makeRequestFrom_attempts {T : Type} (n : Nat) :
    ∀ (cfg : TimbalConfig) (oracle : Nat → FetchOutcome T) (rc : Nat),
      cfg.retryAttempts - rc = n →
      (makeRequestFrom cfg oracle rc).attempts = streakFrom oracle rc n + 1 := by
  induction n with
  | zero =>
    intro cfg oracle rc hn
    rw [makeRequestFrom]
    cases ho : oracle rc with
    | response s st eb ob =>
      simp only [attemptOnce, streakFrom_zero]
      by_cases hok : responseOk s
      · cases ob with
        | ok d => simp [hok]
        | error d => simp [hok]
      · simp only [hok, Bool.false_eq_true, if_false, if_neg]
        split
        · omega
        · rfl
    | abortError =>
      simp only [attemptOnce, streakFrom_zero]
      split
      · omega
      · rfl
    | typeError m =>
      simp only [attemptOnce, streakFrom_zero]
      split
      · omega
      · rfl
    | otherError d =>
      simp [attemptOnce, streakFrom_zero]
  | succ k ih =>
    intro cfg oracle rc hn
    have hlt : rc < cfg.retryAttempts := by omega
    have hrec := ih cfg oracle (rc + 1) (by omega)
    rw [makeRequestFrom]
    cases ho : oracle rc with
    | response s st eb ob =>
      simp only [attemptOnce, streakFrom_succ, ho, retryable]
      by_cases hok : responseOk s
      · have h5 : ¬ 500 ≤ s := by
          simp [responseOk] at hok; omega
        cases ob with
        | ok d => simp [hok, h5]
        | error d => simp [hok, h5]
      · by_cases h5 : 500 ≤ s
        · simp only [hok, Bool.false_eq_true, if_false, if_neg]
          rw [dif_pos (by simp [timbalOfHttpError]; exact ⟨h5, hlt⟩)]
          simp [hrec, h5]
        · simp only [hok, Bool.false_eq_true, if_false, if_neg]
          rw [dif_neg (by simp [timbalOfHttpError]; omega)]
          simp [h5]
    | abortError =>
      simp only [attemptOnce, streakFrom_succ, ho, retryable]
      rw [dif_pos hlt]
      simp [hrec]
    | typeError m =>
      simp only [attemptOnce, streakFrom_succ, ho, retryable]
      rw [dif_pos hlt]
      simp [hrec]
    | otherError d =>
      simp [attemptOnce, streakFrom_succ, ho, retryable]

lemma makeRequestFrom_attempts_pos {T : Type} (cfg : TimbalConfig)
    (oracle : Nat → FetchOutcome T) (rc : Nat) :
    1 ≤ (makeRequestFrom cfg oracle rc).attempts := by
  have := makeRequestFrom_attempts (cfg.retryAttempts - rc) cfg oracle rc rfl
  omega

lemma range_map_shift (d rc m : Nat) :
    d * (rc + 1) :: (List.range m).map (fun i => d * (rc + 1 + i + 1)) =
    (List.range (m + 1)).map (fun i => d * (rc + i + 1)) := by
  rw [List.range_succ_eq_map]
  simp only [List.map_cons, List.map_map]
  congr 1
  apply List.map_congr_left
  intro a _
  show d * (rc + 1 + a + 1) = d * (rc + (a + 1) + 1)
  ring

lemma makeRequestFrom_waits {T : Type} (n : Nat) :
    ∀ (cfg : TimbalConfig) (oracle : Nat → FetchOutcome T) (rc : Nat),
      cfg.retryAttempts - rc = n →
      (makeRequestFrom cfg oracle rc).waits =
        (List.range ((makeRequestFrom cfg oracle rc).attempts - 1)).map
          (fun i => cfg.retryDelay * (rc + i + 1)) := by
  induction n with
  | zero =>
    intro cfg oracle rc hn
    rw [makeRequestFrom]
    cases ho : oracle rc with
    | response s st eb ob =>
      simp only [attemptOnce]
      by_cases hok : responseOk s
      · cases ob with
        | ok d => simp [hok]
        | error d => simp [hok]
      · simp only [hok, Bool.false_eq_true, if_false, if_neg]
        split
        · omega
        · rfl
    | abortError =>
      simp only [attemptOnce]
      split
      · omega
      · rfl
    | typeError m =>
      simp only [attemptOnce]
      split
      · omega
      · rfl
    | otherError d =>
      simp [attemptOnce]
  | succ k ih =>
    intro cfg oracle rc hn
    have hlt : rc < cfg.retryAttempts := by omega
    have hrecw := ih cfg oracle (rc + 1) (by omega)
    have hpos := makeRequestFrom_attempts_pos cfg oracle (rc + 1)
    have hstep : cfg.retryDelay * (rc + 1) ::
        (makeRequestFrom cfg oracle (rc + 1)).waits =
        (List.range ((makeRequestFrom cfg oracle (rc + 1)).attempts + 1 - 1)).map
          (fun i => cfg.retryDelay * (rc + i + 1)) := by
      obtain ⟨m, hm⟩ : ∃ m, (makeRequestFrom cfg oracle (rc + 1)).attempts = m + 1 :=
        ⟨(makeRequestFrom cfg oracle (rc + 1)).attempts - 1, by omega⟩
      rw [hrecw, hm]
      simp only [Nat.add_sub_cancel]
      exact range_map_shift cfg.retryDelay rc m
    rw [makeRequestFrom]
    cases ho : oracle rc with
    | response s st eb ob =>
      simp only [attemptOnce]
      by_cases hok : responseOk s
      · cases ob with
        | ok d => simp [hok]
        | error d => simp [hok]
      · by_cases h5 : 500 ≤ s
        · simp only [hok, Bool.false_eq_true, if_false, if_neg]
          rw [dif_pos (by simp [timbalOfHttpError]; exact ⟨h5, hlt⟩)]
          simpa using hstep
        · simp only [hok, Bool.false_eq_true, if_false, if_neg]
          rw [dif_neg (by simp [timbalOfHttpError]; omega)]
          rfl
    | abortError =>
      simp only [attemptOnce]
      rw [dif_pos hlt]
      simpa using hstep
    | typeError m =>
      simp only [attemptOnce]
      rw [dif_pos hlt]
      simpa using hstep
    | otherError d =>
      simp [attemptOnce]

lemma makeRequestFrom_ok {T : Type} (n : Nat) :
    ∀ (cfg : TimbalConfig) (oracle : Nat → FetchOutcome T) (rc : Nat) (env : ApiResponse T),
      cfg.retryAttempts - rc = n →
      (makeRequestFrom cfg oracle rc).result = .ok env →
      env.success = true ∧ responseOk env.statusCode = true := by
  induction n with
  | zero =>
    intro cfg oracle rc env hn hok
    rw [makeRequestFrom] at hok
    cases ho : oracle rc with
    | response s st eb ob =>
      rw [ho] at hok
      simp only [attemptOnce] at hok
      by_cases hr : responseOk s
      · cases ob with
        | ok d =>
          simp only [hr, if_pos] at hok
          simp only [Except.ok.injEq] at hok
          subst hok
          exact ⟨rfl, hr⟩
        | error d => simp [hr] at hok
      · simp only [hr, Bool.false_eq_true, if_false, if_neg] at hok
        split at hok <;> simp at hok
        · omega
    | abortError =>
      rw [ho] at hok
      simp only [attemptOnce] at hok
      split at hok <;> simp at hok
      · omega
    | typeError m =>
      rw [ho] at hok
      simp only [attemptOnce] at hok
      split at hok <;> simp at hok
      · omega
    | otherError d =>
      rw [ho] at hok
      simp [attemptOnce] at hok
  | succ k ih =>
    intro cfg oracle rc env hn hok
    have hlt : rc < cfg.retryAttempts := by omega
    rw [makeRequestFrom] at hok
    cases ho : oracle rc with
    | response s st eb ob =>
      rw [ho] at hok
      simp only [attemptOnce] at hok
      by_cases hr : responseOk s
      · cases ob with
        | ok d =>
          simp only [hr, if_pos] at hok
          simp only [Except.ok.injEq] at hok
          subst hok
          exact ⟨rfl, hr⟩
        | error d => simp [hr] at hok
      · simp only [hr, Bool.false_eq_true, if_false, if_neg] at hok
        split at hok
        · simp only at hok
          exact ih cfg oracle (rc + 1) env (by omega) hok
        · simp at hok
    | abortError =>
      rw [ho] at hok
      simp only [attemptOnce] at hok
      rw [dif_pos hlt] at hok
      simp only at hok
      exact ih cfg oracle (rc + 1) env (by omega) hok
    | typeError m =>
      rw [ho] at hok
      simp only [attemptOnce] at hok
      rw [dif_pos hlt] at hok
      simp only at hok
      exact ih cfg oracle (rc + 1) env (by omega) hok
    | otherError d =>
      rw [ho] at hok
      simp [attemptOnce] at hok

lemma makeRequestFrom_exhaust {T : Type} (n : Nat) :
    ∀ (cfg : TimbalConfig) (oracle : Nat → FetchOutcome T) (rc : Nat),
      cfg.retryAttempts - rc = n → rc ≤ cfg.retryAttempts →
      (∀ i, rc ≤ i → i ≤ cfg.retryAttempts → retryable (oracle i) = true) →
      (makeRequestFrom cfg oracle rc).result =
        .error (exhaustErr (oracle cfg.retryAttempts)) ∧
      (makeRequestFrom cfg oracle rc).attempts = n + 1 := by
  induction n with
  | zero =>
    intro cfg oracle rc hn hle hall
    have heq : rc = cfg.retryAttempts := by omega
    subst heq
    have hret := hall cfg.retryAttempts (le_refl _) (le_refl _)
    rw [makeRequestFrom]
    cases ho : oracle cfg.retryAttempts with
    | response s st eb ob =>
      rw [ho] at hret
      simp only [retryable, decide_eq_true_eq] at hret
      have hnok : ¬ responseOk s = true := by
        simp only [responseOk, Bool.and_eq_true, decide_eq_true_eq]
        omega
      simp only [attemptOnce, hnok, Bool.false_eq_true, if_false, if_neg]
      rw [dif_neg (by omega)]
      simp [exhaustErr, ho]
    | abortError =>
      simp only [attemptOnce]
      rw [dif_neg (by omega)]
      simp [exhaustErr, ho]
    | typeError m =>
      simp only [attemptOnce]
      rw [dif_neg (by omega)]
      simp [exhaustErr, ho]
    | otherError d =>
      rw [ho] at hret
      simp [retryable] at hret
  | succ k ih =>
    intro cfg oracle rc hn hle hall
    have hlt : rc < cfg.retryAttempts := by omega
    have hret := hall rc (le_refl rc) (by omega)
    have hrec := ih cfg oracle (rc + 1) (by omega) (by omega)
      (fun i h1 h2 => hall i (by omega) h2)
    rw [makeRequestFrom]
    cases ho : oracle rc with
    | response s st eb ob =>
      rw [ho] at hret
      simp only [retryable, decide_eq_true_eq] at hret
      have hnok : ¬ responseOk s = true := by
        simp only [responseOk, Bool.and_eq_true, decide_eq_true_eq]
        omega
      simp only [attemptOnce, hnok, Bool.false_eq_true, if_false, if_neg]
      rw [dif_pos (by simp only [timbalOfHttpError]; exact ⟨hret, hlt⟩)]
      simpa using hrec
    | abortError =>
      simp only [attemptOnce]
      rw [dif_pos hlt]
      simpa using hrec
    | typeError m =>
      simp only [attemptOnce]
      rw [dif_pos hlt]
      simpa using hrec
    | otherError d =>
      rw [ho] at hret
      simp [retryable] at hret

lemma streakFrom_le {T : Type} (oracle : Nat → FetchOutcome T) :
    ∀ (k start : Nat), streakFrom oracle start k ≤ k := by
  intro k
  induction k with
  | zero => intro start; simp [streakFrom_zero]
  | succ m ih =>
    intro start
    rw [streakFrom_succ]
    split
    · exact Nat.succ_le_succ (ih (start + 1))
    · omega

lemma streakFrom_eq_min {T : Type} (oracle : Nat → FetchOutcome T) :
    ∀ (k start n : Nat),
      (∀ i, i < n → retryable (oracle (start + i)) = true) →
      retryable (oracle (start + n)) = false →
      streakFrom oracle start k = min n k := by
  intro k
  induction k with
  | zero => intro start n _ _; simp [streakFrom_zero]
  | succ m ih =>
    intro start n hfail hstop
    rw [streakFrom_succ]
    by_cases hr : retryable (oracle start) = true
    · have hn : n ≠ 0 := by
        intro h0
        rw [h0] at hstop
        simp only [Nat.add_zero] at hstop
        rw [hr] at hstop
        simp at hstop
      obtain ⟨p, hp⟩ : ∃ p, n = p + 1 := ⟨n - 1, by omega⟩
      subst hp
      have h1 : ∀ i, i < p → retryable (oracle (start + 1 + i)) = true := by
        intro i hi
        have := hfail (i + 1) (by omega)
        simpa [Nat.add_assoc, Nat.add_comm 1 i] using this
      have h2 : retryable (oracle (start + 1 + p)) = false := by
        have : start + 1 + p = start + (p + 1) := by omega
        rw [this]
        exact hstop
      rw [if_pos hr, ih (start + 1) p h1 h2]
      omega
    · have hn : n = 0 := by
        by_contra h0
        have := hfail 0 (by omega)
        simp only [Nat.add_zero] at this
        exact hr this
      simp [hr, hn]

/-- C1: for every configuration with max retry attempts `R ≥ 0` and every
sequence of attempt outcomes whose first `n` outcomes are retryable failures
and whose outcome `n` is not (a success or a terminal failure), a dispatch
call issues exactly `1 + min n R` attempts; moreover, for every outcome
sequence whatsoever, no more than `R` retries beyond the first attempt are
performed. -/
theorem c1_attempt_count {T : Type} (cfg : TimbalConfig)
    (oracle : Nat → FetchOutcome T) (n : Nat)
    (hfail : ∀ i, i < n → retryable (oracle i) = true)
    (hstop : retryable (oracle n) = false) :
    (makeRequest cfg oracle).attempts = 1 + min n cfg.retryAttempts ∧
    ∀ oracle2 : Nat → FetchOutcome T,
      (makeRequest cfg oracle2).attempts ≤ 1 + cfg.retryAttempts := by
  constructor
  · have ha := makeRequestFrom_attempts (cfg.retryAttempts) cfg oracle 0 (by omega)
    have hm := streakFrom_eq_min oracle cfg.retryAttempts 0 n
      (by intro i hi; simpa using hfail i hi) (by simpa using hstop)
    rw [makeRequest, ha, hm]
    omega
  · intro oracle2
    have ha := makeRequestFrom_attempts (cfg.retryAttempts) cfg oracle2 0 (by omega)
    have hle := streakFrom_le oracle2 cfg.retryAttempts 0
    rw [makeRequest, ha]
    omega

theorem c1_attempt_count_witness :
    (∀ i, i < 1 → retryable
      ((fun j => if j = 0 then FetchOutcome.abortError
        else FetchOutcome.otherError "boom" : Nat → FetchOutcome Nat) i) = true) ∧
    retryable
      ((fun j => if j = 0 then FetchOutcome.abortError
        else FetchOutcome.otherError "boom" : Nat → FetchOutcome Nat) 1) = false ∧
    (makeRequest ⟨"k", "https://api.test.com", 30000, 2, 100⟩
      (fun j => if j = 0 then FetchOutcome.abortError
        else FetchOutcome.otherError "boom" : Nat → FetchOutcome Nat)).attempts =
      1 + min 1 2 :=
  ⟨by decide, by decide,
    (c1_attempt_count ⟨"k", "https://api.test.com", 30000, 2, 100⟩
      (fun j => if j = 0 then FetchOutcome.abortError
        else FetchOutcome.otherError "boom" : Nat → FetchOutcome Nat) 1
      (by decide) (by decide)).1⟩

/-- C2: every dispatch call produces exactly one outcome: either a success
envelope with `success = true` (and an ok status code), or a raised
`TimbalApiError` — the result type together with this disjunction covers
every control-flow path, including unknown exceptions. -/
theorem c2_single_outcome {T : Type} (cfg : TimbalConfig)
    (oracle : Nat → FetchOutcome T) :
    (∃ env : ApiResponse T, (makeRequest cfg oracle).result = .ok env ∧
      env.success = true ∧ responseOk env.statusCode = true) ∨
    (∃ e : TimbalApiError, (makeRequest cfg oracle).result = .error e) := by
  cases hr : (makeRequest cfg oracle).result with
  | ok env =>
    left
    have := makeRequestFrom_ok (cfg.retryAttempts) cfg oracle 0 env (by omega) hr
    exact ⟨env, rfl, this.1, this.2⟩
  | error e => exact Or.inr ⟨e, rfl⟩

/-- C3: the list of waits slept by a dispatch is exactly
`retryDelay * 1, retryDelay * 2, …`: the wait inserted before re-issuing
attempt `N` (for every `N ≥ 2`) is `retryDelay * (N - 1)` (linear
backoff). -/
theorem c3_linear_backoff {T : Type} (cfg : TimbalConfig)
    (oracle : Nat → FetchOutcome T) :
    (makeRequest cfg oracle).waits =
      (List.range ((makeRequest cfg oracle).attempts - 1)).map
        (fun i => cfg.retryDelay * (i + 1)) := by
  have hw := makeRequestFrom_waits (cfg.retryAttempts) cfg oracle 0 (by omega)
  rw [makeRequest, hw]
  apply List.map_congr_left
  intro a _
  norm_num

lemma jsStrOr_of_ne (s d : String) (h : s ≠ "") : jsStrOr s d = s := by
  simp [jsStrOr, h]

lemma jsFieldOr_ne_empty (v : Option String) (d : String) (hd : d ≠ "") :
    jsFieldOr v d ≠ "" := by
  cases v with
  | none => simpa [jsFieldOr]
  | some s =>
    simp only [jsFieldOr, jsStrOr]
    split
    · exact hd
    · assumption

/-- C4: a dispatch whose first attempt receives an HTTP response with a 4xx
status makes exactly one attempt (no retry) and raises the classified error
built from the parsed body: message `errorData.message || errorData.error`,
code and details from the body, falling back to a message derived from the
status line when the body cannot be parsed. -/
theorem c4_client_error_no_retry {T : Type} (cfg : TimbalConfig)
    (oracle : Nat → FetchOutcome T) (s : Nat) (tx : String)
    (eb : Option ErrBody) (ob : Except String T)
    (h0 : oracle 0 = .response s tx eb ob) (h4 : 400 ≤ s) (h5 : s < 500) :
    (makeRequest cfg oracle).attempts = 1 ∧
    (makeRequest cfg oracle).result = .error (timbalOfHttpError s tx eb) ∧
    (∀ ed, eb = some ed → timbalOfHttpError s tx eb =
      { message := jsFieldOr ed.message (jsFieldOr ed.error "Unknown error")
        statusCode := s, code := ed.code, details := ed.details }) ∧
    (eb = none → timbalOfHttpError s tx eb =
      { message := jsStrOr tx "Unknown error", statusCode := s
        code := none, details := none }) := by
  have hnok : ¬ responseOk s = true := by
    simp only [responseOk, Bool.and_eq_true, decide_eq_true_eq]
    omega
  have hmain : makeRequest cfg oracle =
      { result := .error (timbalOfHttpError s tx eb), attempts := 1, waits := [] } := by
    rw [makeRequest, makeRequestFrom, h0]
    simp only [attemptOnce, hnok, Bool.false_eq_true, if_false, if_neg]
    rw [dif_neg (by simp only [timbalOfHttpError]; omega)]
  refine ⟨by rw [hmain], by rw [hmain], ?_, ?_⟩
  · intro ed hed
    subst hed
    simp only [timbalOfHttpError, parseErrorResponse]
    rw [jsStrOr_of_ne _ _ (jsFieldOr_ne_empty _ _ (jsFieldOr_ne_empty _ _ (by decide)))]
  · intro hnone
    subst hnone
    simp only [timbalOfHttpError, parseErrorResponse]
    rw [jsStrOr_of_ne]
    intro habs
    simp only [jsStrOr] at habs
    split at habs
    · simp at habs
    · exact absurd habs (by assumption)

theorem c4_client_error_no_retry_witness :
    (400 ≤ 404) ∧ (404 < 500) ∧
    (makeRequest ⟨"k", "https://api.test.com", 30000, 3, 100⟩
      (fun _ => FetchOutcome.response 404 "Not Found"
        (some ⟨some "missing", none, some "NOT_FOUND", none⟩)
        (Except.error "SyntaxError") : Nat → FetchOutcome Nat)).attempts = 1 ∧
    (makeRequest ⟨"k", "https://api.test.com", 30000, 3, 100⟩
      (fun _ => FetchOutcome.response 404 "Not Found"
        (some ⟨some "missing", none, some "NOT_FOUND", none⟩)
        (Except.error "SyntaxError") : Nat → FetchOutcome Nat)).result =
      .error (timbalOfHttpError 404 "Not Found"
        (some ⟨some "missing", none, some "NOT_FOUND", none⟩)) :=
  ⟨by decide, by decide,
    (c4_client_error_no_retry ⟨"k", "https://api.test.com", 30000, 3, 100⟩
      (fun _ => FetchOutcome.response 404 "Not Found"
        (some ⟨some "missing", none, some "NOT_FOUND", none⟩)
        (Except.error "SyntaxError") : Nat → FetchOutcome Nat)
      404 "Not Found" (some ⟨some "missing", none, some "NOT_FOUND", none⟩)
      (Except.error "SyntaxError") rfl (by decide) (by decide)).1,
    (c4_client_error_no_retry ⟨"k", "https://api.test.com", 30000, 3, 100⟩
      (fun _ => FetchOutcome.response 404 "Not Found"
        (some ⟨some "missing", none, some "NOT_FOUND", none⟩)
        (Except.error "SyntaxError") : Nat → FetchOutcome Nat)
      404 "Not Found" (some ⟨some "missing", none, some "NOT_FOUND", none⟩)
      (Except.error "SyntaxError") rfl (by decide) (by decide)).2.1⟩

/-- C5: when every attempt up to the retry cap receives an HTTP 5xx
response, the classified error surfaced after exhaustion is the one parsed
from the last attempt's response (index `retryAttempts`), re-raised as-is,
and `retryAttempts + 1` attempts are made. -/
theorem c5_last_server_error {T : Type} (cfg : TimbalConfig)
    (sts : Nat → Nat) (txs : Nat → String) (ebs : Nat → Option ErrBody)
    (obs : Nat → Except String T)
    (h5 : ∀ i, i ≤ cfg.retryAttempts → 500 ≤ sts i) :
    (makeRequest cfg
      (fun i => FetchOutcome.response (sts i) (txs i) (ebs i) (obs i))).result =
      .error (timbalOfHttpError (sts cfg.retryAttempts) (txs cfg.retryAttempts)
        (ebs cfg.retryAttempts)) ∧
    (makeRequest cfg
      (fun i => FetchOutcome.response (sts i) (txs i) (ebs i) (obs i))).attempts =
      cfg.retryAttempts + 1 := by
  have hex := makeRequestFrom_exhaust (cfg.retryAttempts) cfg
    (fun i => FetchOutcome.response (sts i) (txs i) (ebs i) (obs i)) 0
    (by omega) (by omega)
    (by
      intro i _ hle
      simp only [retryable, decide_eq_true_eq]
      exact h5 i hle)
  rw [makeRequest]
  exact ⟨by rw [hex.1]; rfl, hex.2⟩

theorem c5_last_server_error_witness :
    (∀ i, i ≤ 2 → 500 ≤ (fun _ : Nat => 503) i) ∧
    (makeRequest ⟨"k", "https://api.test.com", 30000, 2, 100⟩
      (fun i => FetchOutcome.response ((fun _ : Nat => 503) i)
        ((fun j : Nat => "Service Unavailable " ++ toString j) i)
        ((fun _ : Nat => (none : Option ErrBody)) i)
        ((fun _ : Nat => (Except.error "nope" : Except String Nat)) i))).result =
      .error (timbalOfHttpError 503 "Service Unavailable 2" none) ∧
    (makeRequest ⟨"k", "https://api.test.com", 30000, 2, 100⟩
      (fun i => FetchOutcome.response ((fun _ : Nat => 503) i)
        ((fun j : Nat => "Service Unavailable " ++ toString j) i)
        ((fun _ : Nat => (none : Option ErrBody)) i)
        ((fun _ : Nat => (Except.error "nope" : Except String Nat)) i))).attempts =
      2 + 1 :=
  ⟨by decide,
    (c5_last_server_error ⟨"k", "https://api.test.com", 30000, 2, 100⟩
      (fun _ => 503) (fun j => "Service Unavailable " ++ toString j)
      (fun _ => none) (fun _ => Except.error "nope") (by decide)).1,
    (c5_last_server_error ⟨"k", "https://api.test.com", 30000, 2, 100⟩
      (fun _ => 503) (fun j => "Service Unavailable " ++ toString j)
      (fun _ => none) (fun _ => Except.error "nope") (by decide)).2⟩

/-- C6: when every attempt is aborted by its per-attempt timeout and retries
are exhausted, the dispatch raises the classified error with message
"Request timeout", code TIMEOUT_ERROR and status code 0; when every attempt
fails with a transport `TypeError` and retries are exhausted, it raises the
error with status code 0, code NETWORK_ERROR, and a message embedding the
underlying transport error (the one of the last attempt). -/
theorem c6_timeout_network_exhaustion {T : Type} (cfg : TimbalConfig) :
    (makeRequest cfg (fun _ => (FetchOutcome.abortError : FetchOutcome T))).result =
      .error { message := "Request timeout", statusCode := 0
               code := some ERROR_CODES.TIMEOUT_ERROR, details := none } ∧
    ∀ msgs : Nat → String,
      (makeRequest cfg
        (fun i => (FetchOutcome.typeError (msgs i) : FetchOutcome T))).result =
        .error { message := "Network error: " ++ msgs cfg.retryAttempts
                 statusCode := 0, code := some ERROR_CODES.NETWORK_ERROR
                 details := none } := by
  constructor
  · have hex := makeRequestFrom_exhaust (cfg.retryAttempts) cfg
      (fun _ => (FetchOutcome.abortError : FetchOutcome T)) 0
      (by omega) (by omega) (by intro i _ _; rfl)
    rw [makeRequest, hex.1]
    rfl
  · intro msgs
    have hex := makeRequestFrom_exhaust (cfg.retryAttempts) cfg
      (fun i => (FetchOutcome.typeError (msgs i) : FetchOutcome T)) 0
      (by omega) (by omega) (by intro i _ _; rfl)
    rw [makeRequest, hex.1]
    rfl

/-- C8: terminal classifications propagate on first occurrence: an attempt
with an ok HTTP status whose body fails to parse as JSON ends the dispatch
after exactly one attempt with the unknown-error classified error, and an
attempt with a 4xx status ends the dispatch after exactly one attempt with
the parsed classified error — in neither case is a retry issued. -/
theorem c8_terminal_no_retry {T : Type} (cfg : TimbalConfig) :
    (∀ (oracle : Nat → FetchOutcome T) (s : Nat) (tx : String)
        (eb : Option ErrBody) (d : String),
      oracle 0 = .response s tx eb (.error d) → responseOk s = true →
      (makeRequest cfg oracle).attempts = 1 ∧
      (makeRequest cfg oracle).result =
        .error { message := "Unknown error occurred: " ++ d, statusCode := 0
                 code := some ERROR_CODES.SERVER_ERROR, details := none }) ∧
    (∀ (oracle : Nat → FetchOutcome T) (s : Nat) (tx : String)
        (eb : Option ErrBody) (ob : Except String T),
      oracle 0 = .response s tx eb ob → 400 ≤ s → s < 500 →
      (makeRequest cfg oracle).attempts = 1 ∧
      (makeRequest cfg oracle).result = .error (timbalOfHttpError s tx eb)) := by
  constructor
  · intro oracle s tx eb d h0 hok
    rw [makeRequest, makeRequestFrom, h0]
    simp only [attemptOnce, hok, if_pos]
    exact ⟨trivial, trivial⟩
  · intro oracle s tx eb ob h0 h4 h5
    have hnok : ¬ responseOk s = true := by
      simp only [responseOk, Bool.and_eq_true, decide_eq_true_eq]
      omega
    rw [makeRequest, makeRequestFrom, h0]
    simp only [attemptOnce, hnok, Bool.false_eq_true, if_false, if_neg]
    rw [dif_neg (by simp only [timbalOfHttpError]; omega)]
    exact ⟨rfl, rfl⟩

theorem c8_terminal_no_retry_witness :
    ((fun _ => FetchOutcome.response 200 "OK" none
        (Except.error "SyntaxError: Unexpected token") : Nat → FetchOutcome Nat) 0 =
      FetchOutcome.response 200 "OK" none
        (Except.error "SyntaxError: Unexpected token")) ∧
    responseOk 200 = true ∧
    (makeRequest ⟨"k", "https://api.test.com", 30000, 3, 100⟩
      (fun _ => FetchOutcome.response 200 "OK" none
        (Except.error "SyntaxError: Unexpected token") : Nat → FetchOutcome Nat)).attempts = 1 ∧
    (makeRequest ⟨"k", "https://api.test.com", 30000, 3, 100⟩
      (fun _ => FetchOutcome.response 200 "OK" none
        (Except.error "SyntaxError: Unexpected token") : Nat → FetchOutcome Nat)).result =
      .error { message := "Unknown error occurred: " ++ "SyntaxError: Unexpected token"
               statusCode := 0, code := some ERROR_CODES.SERVER_ERROR, details := none } :=
  ⟨rfl, by decide,
    ((c8_terminal_no_retry ⟨"k", "https://api.test.com", 30000, 3, 100⟩).1
      (fun _ => FetchOutcome.response 200 "OK" none
        (Except.error "SyntaxError: Unexpected token") : Nat → FetchOutcome Nat)
      200 "OK" none "SyntaxError: Unexpected token" rfl (by decide)).1,
    ((c8_terminal_no_retry ⟨"k", "https://api.test.com", 30000, 3, 100⟩).1
      (fun _ => FetchOutcome.response 200 "OK" none
        (Except.error "SyntaxError: Unexpected token") : Nat → FetchOutcome Nat)
      200 "OK" none "SyntaxError: Unexpected token" rfl (by decide)).2⟩

lemma find_set_map_ne {α : Type} (hs : List (String × α)) (lk : String)
    (v : α) (t : String) (h : t ≠ lk) :
    (hs.map (fun p => if p.1 = lk then (lk, v) else p)).find?
        (fun p => p.1 = t) =
      hs.find? (fun p => p.1 = t) := by
  induction hs with
  | nil => rfl
  | cons p tl ih =>
    by_cases hp : p.1 = lk
    · simp only [List.map_cons, hp, if_pos]
      rw [List.find?_cons_of_neg _ (by simp [Ne.symm h]),
        List.find?_cons_of_neg _ (by simp [hp, Ne.symm h])]
      exact ih
    · simp only [List.map_cons, hp, if_neg, ite_false]
      by_cases hpt : p.1 = t
      · rw [List.find?_cons_of_pos _ (by simp [hpt]),
          List.find?_cons_of_pos _ (by simp [hpt])]
      · rw [List.find?_cons_of_neg _ (by simp [hpt]),
          List.find?_cons_of_neg _ (by simp [hpt])]
        exact ih

lemma find_set_map_self {α : Type} (hs : List (String × α)) (lk : String)
    (v : α) (h : hs.any (fun p => p.1 = lk) = true) :
    (hs.map (fun p => if p.1 = lk then (lk, v) else p)).find?
        (fun p => p.1 = lk) = some (lk, v) := by
  induction hs with
  | nil => simp at h
  | cons p tl ih =>
    by_cases hp : p.1 = lk
    · simp [List.map_cons, hp, List.find?_cons]
    · simp only [List.any_cons, Bool.or_eq_true, decide_eq_true_eq] at h
      rcases h with h | h
      · exact absurd h hp
      · simp only [List.map_cons, hp, if_neg, ite_false]
        rw [List.find?_cons_of_neg _ (by simp [hp])]
        exact ih h

lemma headersGet_headersSet (hs : List (String × String)) (k v k' : String) :
    headersGet (headersSet hs k v) k' =
      if lowerName k' = lowerName k then some v else headersGet hs k' := by
  unfold headersSet headersGet
  by_cases hmem : hs.any (fun p => p.1 = lowerName k) = true
  · simp only [hmem, if_pos]
    by_cases hk : lowerName k' = lowerName k
    · rw [if_pos hk, hk, find_set_map_self hs (lowerName k) v hmem]
      rfl
    · rw [if_neg hk, find_set_map_ne hs (lowerName k) v (lowerName k') hk]
  · simp only [hmem, Bool.false_eq_true, if_false, if_neg]
    have hnone : hs.find? (fun p => p.1 = lowerName k) = none := by
      rw [List.find?_eq_none]
      intro p hp
      simp only [decide_eq_true_eq]
      intro hpk
      exact hmem (List.any_eq_true.mpr ⟨p, hp, by simp [hpk]⟩)
    by_cases hk : lowerName k' = lowerName k
    · rw [if_pos hk, List.find?_append, hk, hnone]
      simp
    · rw [if_neg hk, List.find?_append]
      cases hf : hs.find? (fun p => p.1 = lowerName k') with
      | some p => rfl
      | none =>
        have hone : List.find? (fun p => p.1 = lowerName k') [(lowerName k, v)] = none := by
          rw [List.find?_cons_of_neg _ (by simp [Ne.symm hk])]
          rfl
        rw [hone]
        rfl

lemma headersGet_foldl (l : List (String × String)) :
    ∀ (acc : List (String × String)) (k : String),
      (∀ p ∈ l, lowerName p.1 ≠ lowerName k) →
      headersGet (l.foldl (fun hs p => headersSet hs p.1 p.2) acc) k =
        headersGet acc k := by
  induction l with
  | nil => intro acc k _; rfl
  | cons x xs ih =>
    intro acc k hne
    rw [List.foldl_cons, ih (headersSet acc x.1 x.2) k
      (fun p hp => hne p (List.mem_cons_of_mem x hp))]
    rw [headersGet_headersSet]
    rw [if_neg (fun h => hne x (List.mem_cons_self x xs) h.symm)]

lemma headersSet_head_key (p : String × String) (tl : List (String × String))
    (k v : String) :
    ∃ q tl2, headersSet (p :: tl) k v = q :: tl2 ∧ q.1 = p.1 := by
  unfold headersSet
  by_cases hmem : (p :: tl).any (fun x => x.1 = lowerName k) = true
  · simp only [hmem, if_pos, List.map_cons]
    by_cases hp : p.1 = lowerName k
    · exact ⟨(lowerName k, v),
        tl.map (fun x => if x.1 = lowerName k then (lowerName k, v) else x),
        by simp [hp], by simp [hp]⟩
    · exact ⟨p,
        tl.map (fun x => if x.1 = lowerName k then (lowerName k, v) else x),
        by simp [hp], rfl⟩
  · simp only [hmem, Bool.false_eq_true, if_false, if_neg, List.cons_append]
    exact ⟨p, tl ++ [(lowerName k, v)], rfl, rfl⟩

lemma foldl_head_key (l : List (String × String)) :
    ∀ (p : String × String) (tl : List (String × String)),
      ∃ q tl2,
        l.foldl (fun hs x => headersSet hs x.1 x.2) (p :: tl) = q :: tl2 ∧
        q.1 = p.1 := by
  induction l with
  | nil => intro p tl; exact ⟨p, tl, rfl, rfl⟩
  | cons x xs ih =>
    intro p tl
    obtain ⟨q0, tl0, heq0, hk0⟩ := headersSet_head_key p tl x.1 x.2
    obtain ⟨q, tl2, heq, hk⟩ := ih q0 tl0
    refine ⟨q, tl2, ?_, hk.trans hk0⟩
    rw [List.foldl_cons, heq0, heq]

lemma headersHas_false_of_get_none (hs : List (String × String)) (k : String)
    (h : headersGet hs k = none) : headersHas hs k = false := by
  unfold headersGet at h
  unfold headersHas
  cases hf : hs.find? (fun p => p.1 = lowerName k) with
  | some p => rw [hf] at h; simp at h
  | none =>
    rw [List.find?_eq_none] at hf
    rw [List.any_eq_false]
    intro p hp
    simpa using hf p hp

lemma headersGet_base_ne (apiKey k : String) (h : lowerName k ≠ "authorization") :
    headersGet [("authorization", "Bearer " ++ apiKey)] k = none := by
  unfold headersGet
  rw [List.find?_cons_of_neg _ (by simp [Ne.symm h])]
  rfl

lemma headersGet_base_auth (apiKey : String) :
    headersGet [("authorization", "Bearer " ++ apiKey)] "authorization" =
      some ("Bearer " ++ apiKey) := by
  rfl

lemma withCustom_auth (apiKey : String) (optHeaders : List (String × String))
    (h : ∀ p ∈ optHeaders, lowerName p.1 ≠ "authorization") :
    headersGet (withCustomHeaders apiKey optHeaders) "authorization" =
      some ("Bearer " ++ apiKey) := by
  unfold withCustomHeaders
  rw [headersGet_foldl optHeaders _ "authorization"
    (by
      intro p hp
      rw [show lowerName "authorization" = "authorization" from by decide]
      exact h p hp)]
  exact headersGet_base_auth apiKey

lemma withCustom_ct_none (apiKey : String) (optHeaders : List (String × String))
    (h : ∀ p ∈ optHeaders, lowerName p.1 ≠ "content-type") :
    headersGet (withCustomHeaders apiKey optHeaders) "Content-Type" = none := by
  unfold withCustomHeaders
  rw [headersGet_foldl optHeaders _ "Content-Type"
    (by
      intro p hp
      rw [show lowerName "Content-Type" = "content-type" from by decide]
      exact h p hp)]
  exact headersGet_base_ne apiKey "Content-Type" (by decide)

/-- C7: header construction for every request: the built header list starts
with the authorization header; when the caller supplies no authorization
header its value is the bearer credential; caller-supplied headers overwrite
case-insensitively (the `Headers.set` semantics); a non-empty string body
with no caller-supplied content-type header defaults `Content-Type` to
`application/json`; and for multipart (`FormData`) and binary (`Blob`)
bodies no content-type header is ever forced. -/
theorem c7_header_construction (apiKey : String)
    (optHeaders : List (String × String)) :
    (∀ body : BodyOpt,
      (buildHeaders apiKey optHeaders body).head?.map Prod.fst =
        some "authorization") ∧
    ((∀ p ∈ optHeaders, lowerName p.1 ≠ "authorization") → ∀ body : BodyOpt,
      headersGet (buildHeaders apiKey optHeaders body) "authorization" =
        some ("Bearer " ++ apiKey)) ∧
    (∀ (hs : List (String × String)) (k v k2 : String),
      headersGet (headersSet hs k v) k2 =
        if lowerName k2 = lowerName k then some v else headersGet hs k2) ∧
    ((∀ p ∈ optHeaders, lowerName p.1 ≠ "content-type") → ∀ s : String,
      s ≠ "" →
      headersGet (buildHeaders apiKey optHeaders (.str s)) "Content-Type" =
        some "application/json") ∧
    ((∀ p ∈ optHeaders, lowerName p.1 ≠ "content-type") →
      headersGet (buildHeaders apiKey optHeaders .formData) "Content-Type" =
        none ∧
      headersGet (buildHeaders apiKey optHeaders .blob) "Content-Type" =
        none) := by
  obtain ⟨q, tl2, hfold0, hq⟩ :=
    foldl_head_key optHeaders ("authorization", "Bearer " ++ apiKey) []
  have hfold : withCustomHeaders apiKey optHeaders = q :: tl2 := hfold0
  refine ⟨?_, ?_, headersGet_headersSet, ?_, ?_⟩
  · intro body
    cases body with
    | absent => simp only [buildHeaders]; rw [hfold]; simp [hq]
    | formData => simp only [buildHeaders]; rw [hfold]; simp [hq]
    | blob => simp only [buildHeaders]; rw [hfold]; simp [hq]
    | str s =>
      simp only [buildHeaders]
      split
      · rw [hfold]
        obtain ⟨q2, tl3, hset, hq2⟩ :=
          headersSet_head_key q tl2 "Content-Type" "application/json"
        rw [hset]
        simp [hq2, hq]
      · rw [hfold]
        simp [hq]
  · intro hna body
    have hbase := withCustom_auth apiKey optHeaders hna
    cases body with
    | absent => exact hbase
    | formData => exact hbase
    | blob => exact hbase
    | str s =>
      simp only [buildHeaders]
      split
      · rw [headersGet_headersSet]
        rw [if_neg (by decide)]
        exact hbase
      · exact hbase
  · intro hnc s hs
    have hnone := withCustom_ct_none apiKey optHeaders hnc
    have hhas := headersHas_false_of_get_none _ _ hnone
    simp only [buildHeaders]
    rw [if_pos (by simp [hs, hhas])]
    rw [headersGet_headersSet]
    rw [if_pos rfl]
  · intro hnc
    exact ⟨withCustom_ct_none apiKey optHeaders hnc,
      withCustom_ct_none apiKey optHeaders hnc⟩

theorem c7_header_construction_witness :
    (∀ p ∈ [("X-Trace", "42")], lowerName p.1 ≠ "content-type") ∧
    ("abc" : String) ≠ "" ∧
    (∀ p ∈ [("X-Trace", "42")], lowerName p.1 ≠ "authorization") ∧
    headersGet (buildHeaders "key" [("X-Trace", "42")] (.str "abc"))
      "Content-Type" = some "application/json" ∧
    headersGet (buildHeaders "key" [("X-Trace", "42")] .formData)
      "Content-Type" = none ∧
    headersGet (buildHeaders "key" [("X-Trace", "42")] .formData)
      "authorization" = some ("Bearer " ++ "key") :=
  ⟨by decide, by decide, by decide,
    (c7_header_construction "key" [("X-Trace", "42")]).2.2.2.1
      (by decide) "abc" (by decide),
    ((c7_header_construction "key" [("X-Trace", "42")]).2.2.2.2 (by decide)).1,
    (c7_header_construction "key" [("X-Trace", "42")]).2.1
      (by decide) .formData⟩

lemma getField_setField_self (fs : List (String × JVal)) (k : String)
    (v : JVal) : getField (setField fs k v) k = some v := by
  unfold setField getField
  by_cases hmem : fs.any (fun p => p.1 = k) = true
  · rw [if_pos hmem, find_set_map_self fs k v hmem]
    rfl
  · rw [if_neg hmem]
    have hnone : fs.find? (fun p => p.1 = k) = none := by
      rw [List.find?_eq_none]
      intro p hp
      simp only [decide_eq_true_eq]
      intro hpk
      exact hmem (List.any_eq_true.mpr ⟨p, hp, by simp [hpk]⟩)
    rw [List.find?_append, hnone]
    have hpos : List.find? (fun p => p.1 = k) [(k, v)] = some (k, v) := by
      rw [List.find?_cons_of_pos _ (by simp)]
    rw [hpos]
    rfl

lemma getField_setField_ne (fs : List (String × JVal)) (k : String) (v : JVal)
    (k2 : String) (h : k2 ≠ k) :
    getField (setField fs k v) k2 = getField fs k2 := by
  unfold setField getField
  by_cases hmem : fs.any (fun p => p.1 = k) = true
  · rw [if_pos hmem, find_set_map_ne fs k v k2 h]
  · rw [if_neg hmem, List.find?_append]
    cases hf : fs.find? (fun p => p.1 = k2) with
    | some p => rfl
    | none =>
      have hone : List.find? (fun p => p.1 = k2) [(k, v)] = none := by
        rw [List.find?_cons_of_neg _ (by simp [Ne.symm h])]
        rfl
      rw [hone]
      rfl

lemma getField_mergeFields (target : JVal) :
    ∀ (sfs acc : List (String × JVal)) (k : String),
      (sfs.map Prod.fst).Nodup →
      getField (mergeFields target acc sfs) k =
        match sfs.find? (fun p => p.1 = k) with
        | some p =>
            some (if isMergeableObj p.2 then
                deepMerge (jsOrVal (getField (keyEntries target) k) (.obj []))
                  p.2
              else p.2)
        | none => getField acc k := by
  intro sfs
  induction sfs with
  | nil => intro acc k _; rfl
  | cons hd rest ih =>
    intro acc k hnd
    obtain ⟨k0, sv0⟩ := hd
    rw [mergeFields]
    simp only [List.map_cons, List.nodup_cons] at hnd
    rw [ih _ k hnd.2]
    by_cases hk : k = k0
    · subst hk
      have hnone : rest.find? (fun p => p.1 = k) = none := by
        rw [List.find?_eq_none]
        intro p hp
        simp only [decide_eq_true_eq]
        intro hpk
        exact hnd.1 (by rw [← hpk]; exact List.mem_map_of_mem Prod.fst hp)
      rw [hnone, List.find?_cons_of_pos _ (by simp)]
      simp only
      exact getField_setField_self acc k _
    · rw [List.find?_cons_of_neg _ (by simp; exact fun h => hk h.symm)]
      cases hf : rest.find? (fun p => p.1 = k) with
      | some p => rfl
      | none =>
        simp only
        exact getField_setField_ne acc k0 _ k hk

/-- C9: the configuration merge `deepMerge` (used by the constructor and by
`updateConfig`) is a shallow-recursive merge: for every target object and
partial-update object (with distinct keys), a key whose update value is a
non-null non-array object is merged key-wise against the corresponding
target value (`target[key] ||` empty object), a key with any other update
value (primitives, arrays, null) overwrites, and keys absent from the update
keep their target value. -/
theorem c9_deep_merge (tfs sfs : List (String × JVal))
    (hnd : (sfs.map Prod.fst).Nodup) (k : String) :
    getField (objFields (deepMerge (.obj tfs) (.obj sfs))) k =
      match getField sfs k with
      | some sv =>
          some (if isMergeableObj sv then
              deepMerge (jsOrVal (getField tfs k) (.obj [])) sv
            else sv)
      | none => getField tfs k := by
  rw [deepMerge]
  have h := getField_mergeFields (.obj tfs) sfs tfs k hnd
  rw [show keyEntries (.obj tfs) = tfs from rfl] at h
  rw [show objFields (.obj (mergeFields (.obj tfs) (keyEntries (.obj tfs)) sfs)) =
      mergeFields (.obj tfs) tfs sfs from rfl]
  rw [h]
  unfold getField
  cases hf : sfs.find? (fun p => p.1 = k) with
  | some p => rfl
  | none => rfl

theorem c9_deep_merge_witness :
    (([("b", JVal.obj [("y", JVal.num 3)]), ("c", JVal.num 4)].map
      Prod.fst).Nodup) ∧
    getField (objFields (deepMerge
        (.obj [("a", JVal.num 1), ("b", JVal.obj [("x", JVal.num 2)])])
        (.obj [("b", JVal.obj [("y", JVal.num 3)]), ("c", JVal.num 4)]))) "b" =
      match getField [("b", JVal.obj [("y", JVal.num 3)]), ("c", JVal.num 4)] "b" with
      | some sv =>
          some (if isMergeableObj sv then
              deepMerge (jsOrVal
                (getField [("a", JVal.num 1), ("b", JVal.obj [("x", JVal.num 2)])] "b")
                (.obj [])) sv
            else sv)
      | none =>
          getField [("a", JVal.num 1), ("b", JVal.obj [("x", JVal.num 2)])] "b" :=
  ⟨by decide,
    c9_deep_merge [("a", JVal.num 1), ("b", JVal.obj [("x", JVal.num 2)])]
      [("b", JVal.obj [("y", JVal.num 3)]), ("c", JVal.num 4)] (by decide) "b"⟩

lemma heap_read_alloc_old (h : Heap) (fs : List (String × JVal)) (r : Nat)
    (hr : r < h.objs.length) : (h.alloc fs).1.read r = h.read r := by
  unfold Heap.alloc Heap.read
  simp only [List.get?_eq_getElem?]
  rw [List.getElem?_append]
  simp [hr]

lemma heap_read_alloc_new (h : Heap) (fs : List (String × JVal)) :
    (h.alloc fs).1.read (h.alloc fs).2 = some fs := by
  unfold Heap.alloc Heap.read
  simp only
  rw [List.get?_eq_getElem?]
  simp

lemma heap_read_write_ne (h : Heap) (r : Nat) (k : String) (v : JVal)
    (r2 : Nat) (hne : r ≠ r2) : (h.writeField r k v).read r2 = h.read r2 := by
  unfold Heap.writeField Heap.read
  simp only [List.get?_eq_getElem?]
  rw [List.getElem?_set_ne hne]

/-- C10: `getConfig` returns a defensive copy: the reference it returns is a
fresh object distinct from the stored configuration; the client state keeps
the same stored reference with unchanged contents; mutating any field of the
returned object leaves the stored configuration unchanged; the returned copy
is structurally equal to the stored configuration; and two consecutive
`getConfig` calls with no intervening update return structurally equal
values. -/
theorem c10_get_config_defensive_copy (st : ClientState)
    (hvalid : st.configRef < st.heap.objs.length) :
    (getConfig st).2 ≠ st.configRef ∧
    (getConfig st).1.configRef = st.configRef ∧
    Heap.read (getConfig st).1.heap st.configRef =
      Heap.read st.heap st.configRef ∧
    (∀ (k : String) (v : JVal),
      Heap.read (Heap.writeField (getConfig st).1.heap (getConfig st).2 k v)
        st.configRef = Heap.read st.heap st.configRef) ∧
    Heap.read (getConfig st).1.heap (getConfig st).2 =
      Heap.read st.heap st.configRef ∧
    Heap.read (getConfig (getConfig st).1).1.heap
        (getConfig (getConfig st).1).2 =
      Heap.read st.heap st.configRef := by
  obtain ⟨l, hl⟩ : ∃ l, st.heap.read st.configRef = some l := by
    unfold Heap.read
    rw [List.get?_eq_getElem?, List.getElem?_eq_getElem hvalid]
    exact ⟨_, rfl⟩
  have h2 : (getConfig st).2 = st.heap.objs.length := rfl
  have h1heap : (getConfig st).1.heap =
      (st.heap.alloc ((st.heap.read st.configRef).getD [])).1 := rfl
  have hfs : (st.heap.read st.configRef).getD [] = l := by rw [hl]; rfl
  refine ⟨by omega, rfl, ?_, ?_, ?_, ?_⟩
  · rw [h1heap, heap_read_alloc_old _ _ _ hvalid]
  · intro k v
    rw [h1heap, h2, heap_read_write_ne _ _ _ _ _ (by
      have : ((st.heap.alloc ((st.heap.read st.configRef).getD [])).1).objs.length =
          st.heap.objs.length + 1 := by
        unfold Heap.alloc
        simp
      omega)]
    rw [heap_read_alloc_old _ _ _ hvalid]
  · rw [h1heap, h2]
    have := heap_read_alloc_new st.heap ((st.heap.read st.configRef).getD [])
    rw [show (st.heap.alloc ((st.heap.read st.configRef).getD [])).2 =
        st.heap.objs.length from rfl] at this
    rw [this, hfs, hl]
  · have hv1 : (getConfig st).1.configRef < (getConfig st).1.heap.objs.length := by
      rw [h1heap]
      show st.configRef < (st.heap.alloc _).1.objs.length
      unfold Heap.alloc
      simp only [List.length_append, List.length_cons, List.length_nil]
      omega
    have hread1 : (getConfig st).1.heap.read (getConfig st).1.configRef =
        some l := by
      show ((getConfig st).1.heap).read st.configRef = some l
      rw [h1heap, heap_read_alloc_old _ _ _ hvalid, hl]
    have := heap_read_alloc_new (getConfig st).1.heap
      (((getConfig st).1.heap.read (getConfig st).1.configRef).getD [])
    rw [hread1] at this
    rw [show Heap.read (getConfig (getConfig st).1).1.heap
          (getConfig (getConfig st).1).2 =
        ((getConfig st).1.heap.alloc
          (((getConfig st).1.heap.read (getConfig st).1.configRef).getD [])).1.read
          ((getConfig st).1.heap.alloc
            (((getConfig st).1.heap.read (getConfig st).1.configRef).getD [])).2
        from rfl]
    rw [hread1]
    have h3 := heap_read_alloc_new (getConfig st).1.heap ((some l).getD [])
    rw [h3, hl]
    rfl

theorem c10_get_config_defensive_copy_witness :
    (0 : Nat) <
      (ClientState.mk ⟨[[("apiKey", JVal.str "k")]]⟩ 0).heap.objs.length ∧
    (getConfig (ClientState.mk ⟨[[("apiKey", JVal.str "k")]]⟩ 0)).2 ≠ 0 ∧
    Heap.read
        (Heap.writeField
          (getConfig (ClientState.mk ⟨[[("apiKey", JVal.str "k")]]⟩ 0)).1.heap
          (getConfig (ClientState.mk ⟨[[("apiKey", JVal.str "k")]]⟩ 0)).2
          "apiKey" (JVal.str "evil")) 0 =
      Heap.read (Heap.mk [[("apiKey", JVal.str "k")]]) 0 :=
  ⟨by decide,
    (c10_get_config_defensive_copy
      (ClientState.mk ⟨[[("apiKey", JVal.str "k")]]⟩ 0) (by decide)).1,
    (c10_get_config_defensive_copy
      (ClientState.mk ⟨[[("apiKey", JVal.str "k")]]⟩ 0) (by decide)).2.2.2.1
      "apiKey" (JVal.str "evil")⟩
